import Mathlib

/-!
Shallow embedding of the otgorm adapter (package otgorm, files
callbacks.go and the attribute-converter file) and proofs about its
observable behaviour.

Modelling conventions:
* Go dynamic values passed to `CreateSpanAttribute` are a closed sum
  `GoValue`; integer carriers are mathematical integers, with the Go
  reinterpreting conversions (uint/uint64 to int/int64) spelled out as
  wrap-around at 2^64.  Float payloads are carried as exact rationals:
  the only float operation the code performs is the widening conversion
  float32 to float64, which is value-preserving in IEEE 754, so it is
  the identity on the carried value.
* The OpenTelemetry attribute value is the sum `AttrValue` over the
  four value kinds the code produces (BOOL, INT64, FLOAT64, STRING).
* The gorm scope is a record `Scope`: an association list for the
  string-keyed Get/Set slots, the statement metadata (table, rendered
  SQL) and the operation error.
* Span-side effects of the after hook (`SetAttributes`, `SetStatus`,
  `End`) are recorded as an event trace `List SpanEvent`.
* `trace.SpanFromContext` of the OpenTelemetry Go API returns a no-op
  span, never nil, when the context carries no span; the embedding
  `spanFromContext` reflects that (it always returns `some`).
-/

/-- OpenTelemetry attribute value: the four value kinds produced by the
code (attribute.Bool, attribute.Int/Int64, attribute.Float64,
attribute.String).  Float payloads are exact rationals. -/
inductive AttrValue where
  | boolVal (b : Bool)
  | int64Val (x : Int)
  | float64Val (q : Rat)
  | stringVal (s : String)
  deriving DecidableEq, Repr

/-- OpenTelemetry attribute.KeyValue: a key with a typed value. -/
structure KeyValue where
  key : String
  value : AttrValue
  deriving DecidableEq, Repr

/-- Go dynamic value (interface\x7b\x7d) covering the cases of the type
switch in CreateSpanAttribute plus a catch-all for every other dynamic
type; the catch-all carries the fmt %s rendering of the value, which is
the only thing the code observes about it. -/
inductive GoValue where
  | VString (s : String)
  | VBool (b : Bool)
  | VInt64 (x : Int)
  | VInt32 (x : Int)
  | VInt (x : Int)
  | VFloat64 (q : Rat)
  | VFloat32 (q : Rat)
  | VUint (x : Nat)
  | VUint64 (x : Nat)
  | VUint32 (x : Nat)
  | VUnsupported (render : String)
  deriving DecidableEq, Repr

/-- The Go conversion int64(x) (equally int(x) on a 64-bit platform)
applied to a uint64/uint value x: reinterpretation of the
twos-complement bits, i.e. wrap-around at 2^64. -/
def goIntOfUint64 (x : Nat) : Int :=
  if x < 2 ^ 63 then (x : Int) else (x : Int) - 2 ^ 64

/-- The message fmt.Sprintf builds on the fallthrough return of
CreateSpanAttribute; r is the %s rendering of the value (for a string
value, the string itself). -/
def convErrMsg (r : String) : String :=
  "couldn\x27t convert " ++ r ++ " into KeyValue"

/-- CreateSpanAttribute from the attribute-converter source file: a type
switch whose string case has an empty body, so string values fall
through (like unsupported types) to the attribute.error return. -/
def CreateSpanAttribute (k : String) (v : GoValue) : KeyValue :=
  match v with
  | .VString s => ⟨"attribute.error", .stringVal (convErrMsg s)⟩
  | .VBool x => ⟨k, .boolVal x⟩
  | .VInt64 x => ⟨k, .int64Val x⟩
  | .VInt32 x => ⟨k, .int64Val x⟩
  | .VInt x => ⟨k, .int64Val x⟩
  | .VFloat64 x => ⟨k, .float64Val x⟩
  | .VFloat32 x => ⟨k, .float64Val x⟩
  | .VUint x => ⟨k, .int64Val (goIntOfUint64 x)⟩
  | .VUint64 x => ⟨k, .int64Val (goIntOfUint64 x)⟩
  | .VUint32 x => ⟨k, .int64Val (x : Int)⟩
  | .VUnsupported r => ⟨"attribute.error", .stringVal (convErrMsg r)⟩

/-- C2: for every string input value, CreateSpanAttribute produces no
string attribute for it under the given key: the string case falls
through to the default conversion path and the result is the
conversion-error attribute, treating the legitimate string value as a
conversion error. -/
theorem createSpanAttribute_string_falls_through (k s : String) :
    CreateSpanAttribute k (GoValue.VString s) =
      ⟨"attribute.error", AttrValue.stringVal (convErrMsg s)⟩ := by
  rfl

/-- C4: every supported input value maps to an attribute of the matching
semantic type: booleans to boolean attributes, every integer width to a
64-bit integer attribute with the numeric value preserved losslessly
where the target representation allows (for uint and uint64 that is the
range below 2^63), 32-bit floats widened to 64-bit float attributes and
64-bit floats to 64-bit float attributes. -/
theorem createSpanAttribute_type_mapping (k : String) :
    (∀ b, CreateSpanAttribute k (GoValue.VBool b) = ⟨k, AttrValue.boolVal b⟩) ∧
    (∀ x : Int, CreateSpanAttribute k (GoValue.VInt64 x) = ⟨k, AttrValue.int64Val x⟩) ∧
    (∀ x : Int, CreateSpanAttribute k (GoValue.VInt32 x) = ⟨k, AttrValue.int64Val x⟩) ∧
    (∀ x : Int, CreateSpanAttribute k (GoValue.VInt x) = ⟨k, AttrValue.int64Val x⟩) ∧
    (∀ x : Nat, x < 2 ^ 63 →
      CreateSpanAttribute k (GoValue.VUint x) = ⟨k, AttrValue.int64Val (x : Int)⟩) ∧
    (∀ x : Nat, x < 2 ^ 63 →
      CreateSpanAttribute k (GoValue.VUint64 x) = ⟨k, AttrValue.int64Val (x : Int)⟩) ∧
    (∀ x : Nat, CreateSpanAttribute k (GoValue.VUint32 x) = ⟨k, AttrValue.int64Val (x : Int)⟩) ∧
    (∀ q : Rat, CreateSpanAttribute k (GoValue.VFloat32 q) = ⟨k, AttrValue.float64Val q⟩) ∧
    (∀ q : Rat, CreateSpanAttribute k (GoValue.VFloat64 q) = ⟨k, AttrValue.float64Val q⟩) := by
  refine ⟨fun b => rfl, fun x => rfl, fun x => rfl, fun x => rfl, ?_, ?_, fun x => rfl,
    fun q => rfl, fun q => rfl⟩ <;>
    · intro x hx
      simp [CreateSpanAttribute, goIntOfUint64, hx]
      omega

/-- Witness for C4 at concrete inputs, discharging the range
hypotheses of the uint and uint64 conjuncts. -/
theorem createSpanAttribute_type_mapping_witness :
    CreateSpanAttribute "k" (GoValue.VUint 5) = ⟨"k", AttrValue.int64Val 5⟩ ∧
    CreateSpanAttribute "k" (GoValue.VUint64 7) = ⟨"k", AttrValue.int64Val 7⟩ :=
  ⟨(createSpanAttribute_type_mapping "k").2.2.2.2.1 5 (by decide),
   (createSpanAttribute_type_mapping "k").2.2.2.2.2.1 7 (by decide)⟩

/-- C5: every input of an unsupported dynamic type yields the string
attribute under the fixed sentinel key "attribute.error", whose value is
the human-readable message containing the stringified input value; the
function is total, so this path cannot fail. -/
theorem createSpanAttribute_unsupported_sentinel (k r : String) :
    CreateSpanAttribute k (GoValue.VUnsupported r) =
      ⟨"attribute.error",
        AttrValue.stringVal ("couldn\x27t convert " ++ r ++ " into KeyValue")⟩ := by
  rfl

/-- OpenTelemetry span kinds (trace.SpanKind). -/
inductive SpanKind where
  | unspecified
  | internal
  | server
  | client
  | producer
  | consumer
  deriving DecidableEq, Repr

/-- trace.SpanStartOption: the one option the code builds itself
(trace.WithSpanKind) plus a catch-all for caller-supplied options,
identified by an opaque tag. -/
inductive SpanStartOption where
  | withSpanKind (k : SpanKind)
  | other (id : Nat)
  deriving DecidableEq, Repr

/-- trace.Tracer handles: the nil zero value of the interface, the
tracer the global registry returns for an instrumentation name
(otel.Tracer name), or an opaque caller-supplied tracer. -/
inductive Tracer where
  | nil
  | globalTracer (name : String)
  | custom (id : Nat)
  deriving DecidableEq, Repr

/-- The callbacks struct of callbacks.go: the settings bundle shared by
all hook invocations. -/
structure callbacks where
  allowRoot : Bool
  query : Bool
  table : Bool
  defaultAttributes : List KeyValue
  tracer : Tracer
  spanOptions : List SpanStartOption
  deriving DecidableEq, Repr

/-- The Option interface of callbacks.go together with its
implementations: WithSpanOptions, WithTracer, AllowRoot, Query, Table,
DefaultAttributes.  (Named ConfigOption because Lean already has
Option.) -/
inductive ConfigOption where
  | withSpanOptions (opts : List SpanStartOption)
  | withTracer (t : Tracer)
  | allowRoot (b : Bool)
  | query (b : Bool)
  | table (b : Bool)
  | defaultAttributes (d : List KeyValue)
  deriving DecidableEq, Repr

/-- The apply method of each Option implementation: each sets exactly
one field of the callbacks struct. -/
def ConfigOption.apply (o : ConfigOption) (c : callbacks) : callbacks :=
  match o with
  | .withSpanOptions opts => { c with spanOptions := opts }
  | .withTracer t => { c with tracer := t }
  | .allowRoot b => { c with allowRoot := b }
  | .query b => { c with query := b }
  | .table b => { c with table := b }
  | .defaultAttributes d => { c with defaultAttributes := d }

/-- The composite literal of RegisterCallbacks:
callbacks\x7bdefaultAttributes: []attribute.KeyValue\x7b\x7d\x7d, with
all other fields at their Go zero values. -/
def zeroCallbacks : callbacks :=
  { allowRoot := false, query := false, table := false,
    defaultAttributes := [], tracer := .nil, spanOptions := [] }

/-- The built-in default options RegisterCallbacks prepends before the
caller-supplied ones: the global tracer under the fixed instrumentation
name "otgorm" and a span-start option of kind internal. -/
def defaultOpts : List ConfigOption :=
  [.withTracer (.globalTracer "otgorm"),
   .withSpanOptions [.withSpanKind .internal]]

/-- The Settings value RegisterCallbacks builds: the zero-seeded struct
with the default options, then the caller-supplied options, applied in
order.  (The hook registration side effect on the gorm handle is out of
scope of this value.) -/
def RegisterCallbacks (opts : List ConfigOption) : callbacks :=
  (defaultOpts ++ opts).foldl (fun c o => o.apply c) zeroCallbacks

/-- Value of a field after an option list runs: the payload of the last
option in the list that touches the field selected by sel, or the
starting value d when none does. -/
def lastField {α : Type} (sel : ConfigOption → Option α) (d : α)
    (opts : List ConfigOption) : α :=
  opts.foldl (fun v o => (sel o).getD v) d

/-- Field selectors: which options touch which field, and with what
payload. -/
def selAllowRoot : ConfigOption → Option Bool
  | .allowRoot b => some b
  | _ => none

/-- Selector for the query field. -/
def selQuery : ConfigOption → Option Bool
  | .query b => some b
  | _ => none

/-- Selector for the table field. -/
def selTable : ConfigOption → Option Bool
  | .table b => some b
  | _ => none

/-- Selector for the defaultAttributes field. -/
def selDefaultAttributes : ConfigOption → Option (List KeyValue)
  | .defaultAttributes d => some d
  | _ => none

/-- Selector for the tracer field. -/
def selTracer : ConfigOption → Option Tracer
  | .withTracer t => some t
  | _ => none

/-- Selector for the spanOptions field. -/
def selSpanOptions : ConfigOption → Option (List SpanStartOption)
  | .withSpanOptions o => some o
  | _ => none

/-- Folding an option list over a struct tracks, per field, the last
option that touched the field (helper for the configuration claim). -/
theorem foldl_apply_lastField {α : Type} (sel : ConfigOption → Option α)
    (get : callbacks → α)
    (hset : ∀ o c, get (o.apply c) = (sel o).getD (get c)) :
    ∀ (opts : List ConfigOption) (c : callbacks),
      get (opts.foldl (fun c o => o.apply c) c) = lastField sel (get c) opts := by
  intro opts
  induction opts with
  | nil => intro c; rfl
  | cons o rest ih =>
      intro c
      have h1 : lastField sel (get c) (o :: rest) =
          lastField sel ((sel o).getD (get c)) rest := rfl
      rw [List.foldl_cons, ih, hset, h1]

/-- C6: the Settings value RegisterCallbacks builds has each field equal
to the payload of the last caller-supplied Option that touched it, and
every untouched field keeps its built-in default: tracer = the global
tracer under the fixed name "otgorm", span-start options = [span kind
internal], allowRoot = false, query = false, table = false, default
attributes = []. -/
theorem registerCallbacks_last_option_wins (opts : List ConfigOption) :
    (RegisterCallbacks opts).allowRoot = lastField selAllowRoot false opts ∧
    (RegisterCallbacks opts).query = lastField selQuery false opts ∧
    (RegisterCallbacks opts).table = lastField selTable false opts ∧
    (RegisterCallbacks opts).defaultAttributes =
      lastField selDefaultAttributes [] opts ∧
    (RegisterCallbacks opts).tracer =
      lastField selTracer (Tracer.globalTracer "otgorm") opts ∧
    (RegisterCallbacks opts).spanOptions =
      lastField selSpanOptions [SpanStartOption.withSpanKind SpanKind.internal] opts := by
  have hbase : RegisterCallbacks opts =
      opts.foldl (fun c o => o.apply c)
        { allowRoot := false, query := false, table := false,
          defaultAttributes := [],
          tracer := Tracer.globalTracer "otgorm",
          spanOptions := [SpanStartOption.withSpanKind SpanKind.internal] } := by
    rfl
  refine ⟨?_, ?_, ?_, ?_, ?_, ?_⟩ <;> rw [hbase]
  · exact foldl_apply_lastField selAllowRoot callbacks.allowRoot
      (by intro o c; cases o <;> rfl) opts _
  · exact foldl_apply_lastField selQuery callbacks.query
      (by intro o c; cases o <;> rfl) opts _
  · exact foldl_apply_lastField selTable callbacks.table
      (by intro o c; cases o <;> rfl) opts _
  · exact foldl_apply_lastField selDefaultAttributes callbacks.defaultAttributes
      (by intro o c; cases o <;> rfl) opts _
  · exact foldl_apply_lastField selTracer callbacks.tracer
      (by intro o c; cases o <;> rfl) opts _
  · exact foldl_apply_lastField selSpanOptions callbacks.spanOptions
      (by intro o c; cases o <;> rfl) opts _

/-- Span handles: the no-op span the OpenTelemetry API substitutes for
an absent span, and real spans identified by a creation counter. -/
inductive SpanHandle where
  | noop
  | real (id : Nat)
  deriving DecidableEq, Repr

/-- A context.Context as far as this adapter observes it: it may carry
a current span (trace-context propagation). -/
structure Ctx where
  current : Option SpanHandle
  deriving DecidableEq, Repr

/-- context.Background(): a context carrying no span. -/
def Ctx.background : Ctx := ⟨none⟩

/-- Dynamically typed values stored in the gorm scope under string keys:
a context, a span, or a value of any other dynamic type (opaque). -/
inductive ScopeVal where
  | ctxVal (c : Ctx)
  | spanVal (s : SpanHandle)
  | otherVal (id : Nat)
  deriving DecidableEq, Repr

/-- The statement metadata the after hook reads from the scope:
scope.Statement.Table and scope.Statement.SQL.String(). -/
structure Statement where
  table : String
  sql : String
  deriving DecidableEq, Repr

/-- Errors of the underlying database operation: the class of errors
for which errors.Is(err, gorm.ErrRecordNotFound) holds, and all other
errors (opaque). -/
inductive GormError where
  | recordNotFound
  | otherErr (id : Nat)
  deriving DecidableEq, Repr

/-- errors.Is(err, gorm.ErrRecordNotFound). -/
def errorsIsRecordNotFound : GormError → Bool
  | .recordNotFound => true
  | .otherErr _ => false

/-- The gorm scope (a *gorm.DB in the hooks): the string-keyed Get/Set
slots, the statement metadata and the operation error. -/
structure Scope where
  kv : List (String × ScopeVal)
  statement : Statement
  error : Option GormError
  deriving DecidableEq, Repr

/-- scope.Get(key): first stored value under the key, with ok flag as
Option. -/
def scopeGet (s : Scope) (k : String) : Option ScopeVal :=
  s.kv.lookup k

/-- scope.Set(key, value): stores the value under the key (newest entry
shadows older ones, matching overwrite semantics observably). -/
def scopeSet (s : Scope) (k : String) (v : ScopeVal) : Scope :=
  { s with kv := (k, v) :: s.kv }

/-- The scope key "_otContext" of callbacks.go. -/
def contextScopeKey : String := "_otContext"

/-- The scope key "_otSpan" of callbacks.go. -/
def spanScopeKey : String := "_otSpan"

/-- OpenTelemetry status codes (codes.Unset, codes.Error, codes.Ok). -/
inductive StatusCode where
  | unset
  | error
  | ok
  deriving DecidableEq, Repr

/-- Calls the after hook makes on the span handle, in order:
span.SetAttributes, span.SetStatus, span.End. -/
inductive SpanEvent where
  | setAttributes (attrs : List KeyValue)
  | setStatus (code : StatusCode) (msg : String)
  | spanEnd
  deriving DecidableEq, Repr

/-- Supply of fresh span identities for tracer.Start. -/
structure World where
  nextId : Nat
  deriving DecidableEq, Repr

/-- tracer.Start(ctx, name, opts...): starts a fresh span (a child of
whatever span the context carries, per standard propagation) and
returns the context carrying it together with the span. -/
def tracerStart (_t : Tracer) (_ctx : Ctx) (_name : String)
    (_opts : List SpanStartOption) (w : World) : Ctx × SpanHandle × World :=
  let sp := SpanHandle.real w.nextId
  (⟨some sp⟩, sp, ⟨w.nextId + 1⟩)

/-- trace.SpanFromContext(ctx) of the OpenTelemetry Go API: returns the
span carried by the context, or a no-op span when there is none.  It
never returns nil, so the result is always some. -/
def spanFromContext (ctx : Ctx) : Option SpanHandle :=
  some (match ctx.current with
        | some s => s
        | none => SpanHandle.noop)

/-- The attribute keys of callbacks.go: TableKey = "gorm.table". -/
def TableKey : String := "gorm.table"

/-- The attribute keys of callbacks.go: QueryKey = "gorm.query". -/
def QueryKey : String := "gorm.query"

/-- attribute.Key.String(k, v): a string attribute. -/
def keyString (k v : String) : KeyValue :=
  ⟨k, .stringVal v⟩

/-- startTrace of callbacks.go.  The Go ctx variable may be nil, hence
Option Ctx; the method substitutes Background for nil, asks
trace.SpanFromContext for a parent span, and returns early only when
that call returned nil and root spans are disallowed; otherwise it
starts a span and stores it in the scope under spanScopeKey.  The
returned callbacks value is the receiver, which the body never assigns
to. -/
def startTrace (c : callbacks) (ctx : Option Ctx) (scope : Scope)
    (operation : String) (w : World) : callbacks × Ctx × Scope × World :=
  let ctx := match ctx with
             | none => Ctx.background
             | some c0 => c0
  let parentSpan := spanFromContext ctx
  if parentSpan.isNone && !c.allowRoot then
    (c, ctx, scope, w)
  else
    let r := tracerStart c.tracer ctx ("gorm:" ++ operation) c.spanOptions w
    (c, r.1, scopeSet scope spanScopeKey (ScopeVal.spanVal r.2.1), r.2.2)

/-- The before hook of callbacks.go: reads the stored context (any
missing slot or value of the wrong dynamic type is replaced by
Background), runs startTrace and stores the resulting context back into
the scope. -/
def before (c : callbacks) (scope : Scope) (operation : String)
    (w : World) : callbacks × Scope × World :=
  let rctx := scopeGet scope contextScopeKey
  let ctx : Ctx := match rctx with
                   | some (ScopeVal.ctxVal c0) => c0
                   | _ => Ctx.background
  let r := startTrace c (some ctx) scope operation w
  (r.1, scopeSet r.2.2.1 contextScopeKey (ScopeVal.ctxVal r.2.1), r.2.2.2)

/-- endTrace of callbacks.go: returns silently when the span slot is
missing or holds a value that is not a trace.Span; otherwise attaches
the attribute set in one SetAttributes call, sets a status only when the
operation errored, and ends the span.  The event list records the calls
made on the span, in order; the returned callbacks value is the
receiver, which the body never assigns to. -/
def endTrace (c : callbacks) (scope : Scope) : callbacks × List SpanEvent :=
  match scopeGet scope spanScopeKey with
  | none => (c, [])
  | some rspan =>
    match rspan with
    | ScopeVal.spanVal _ =>
      let attributes := c.defaultAttributes
      let attributes := if c.table
        then attributes ++ [keyString TableKey scope.statement.table]
        else attributes
      let attributes := if c.query
        then attributes ++ [keyString QueryKey scope.statement.sql]
        else attributes
      let statusEvents : List SpanEvent :=
        match scope.error with
        | none => []
        | some err =>
          if errorsIsRecordNotFound err
          then [SpanEvent.setStatus StatusCode.error "not found"]
          else [SpanEvent.setStatus StatusCode.unset "unknown"]
      (c, SpanEvent.setAttributes attributes :: statusEvents ++ [SpanEvent.spanEnd])
    | _ => (c, [])

/-- The after hook of callbacks.go: delegates to endTrace. -/
def after (c : callbacks) (scope : Scope) : callbacks × List SpanEvent :=
  endTrace c scope

/-- Frame of the before hook: the method never assigns to any field of
its receiver, so the settings value it returns is its input. -/
theorem before_frame (c : callbacks) (scope : Scope) (operation : String)
    (w : World) : (before c scope operation w).1 = c := by
  simp only [before, startTrace]
  split <;> rfl

/-- Frame of endTrace: the method never assigns to any field of its
receiver, so the settings value it returns is its input. -/
theorem endTrace_frame (c : callbacks) (scope : Scope) :
    (endTrace c scope).1 = c := by
  unfold endTrace
  cases h : scopeGet scope spanScopeKey with
  | none => rfl
  | some v => cases v <;> rfl

/-- One database operation as the hooks observe it: operation name,
resolved table, rendered SQL and the error outcome produced by the
engine between the two hooks. -/
structure Operation where
  name : String
  table : String
  sql : String
  result : Option GormError
  deriving DecidableEq, Repr

/-- One before/after pair around a database operation: the before hook
runs, the engine fills in statement metadata and the error, then the
after hook (endTrace) runs. -/
def runOp (c : callbacks) (scope : Scope) (w : World) (op : Operation) :
    callbacks × Scope × World × List SpanEvent :=
  let r1 := before c scope op.name w
  let s2 : Scope :=
    { r1.2.1 with statement := ⟨op.table, op.sql⟩, error := op.result }
  let r2 := endTrace r1.1 s2
  (r2.1, s2, r1.2.2, r2.2)

/-- A sequence of operations, threading the settings value through
every hook invocation. -/
def runOps (c : callbacks) (scope : Scope) (w : World) :
    List Operation → callbacks × Scope × World
  | [] => (c, scope, w)
  | op :: rest =>
    let r := runOp c scope w op
    runOps r.1 r.2.1 r.2.2.1 rest

/-- Frame of a single operation on the settings value. -/
theorem runOp_frame (c : callbacks) (scope : Scope) (w : World)
    (op : Operation) : (runOp c scope w op).1 = c := by
  simp only [runOp]
  rw [endTrace_frame, before_frame]

/-- C8: the Settings value is never mutated after setup: no before or
after hook invocation changes any field, over any sequence of
operations, and each single hook invocation returns its receiver
unchanged. -/
theorem settings_never_mutated (ops : List Operation) (c : callbacks)
    (scope : Scope) (w : World) :
    (runOps c scope w ops).1 = c ∧
    (∀ s o w0, (before c s o w0).1 = c) ∧
    (∀ s, (endTrace c s).1 = c) := by
  refine ⟨?_, fun s o w0 => before_frame c s o w0, fun s => endTrace_frame c s⟩
  induction ops generalizing c scope w with
  | nil => rfl
  | cons op rest ih =>
      simp only [runOps]
      rw [ih, runOp_frame]

/-- C1 evaluated at the failing input: with default settings (allowRoot
= false) and a scope carrying no stored context, hence no parent span,
the before hook nevertheless stores a freshly started span in the scope
(because trace.SpanFromContext returns a non-nil no-op span, the guard
parentSpan == nil never fires), and the matching after hook then finds
that span, attaches attributes and ends it — contradicting the claim
that no span is created and the after hook no-ops. -/
theorem before_disallowed_root_still_starts_span :
    (RegisterCallbacks []).allowRoot = false ∧
    scopeGet (before (RegisterCallbacks []) ⟨[], ⟨"", ""⟩, none⟩ "query" ⟨0⟩).2.1
        spanScopeKey = some (ScopeVal.spanVal (SpanHandle.real 0)) ∧
    (endTrace (RegisterCallbacks [])
        (before (RegisterCallbacks []) ⟨[], ⟨"", ""⟩, none⟩ "query" ⟨0⟩).2.1).2
      = [SpanEvent.setAttributes [], SpanEvent.spanEnd] := by
  decide

/-- C3: when a span was started for the operation, the after hook sets
no status if the operation produced no error, sets status Error with
message "not found" on a record-not-found error, and sets status Unset
with message "unknown" on any other error. -/
theorem endTrace_status_classification (c : callbacks) (scope : Scope)
    (sp : SpanHandle)
    (h : scopeGet scope spanScopeKey = some (ScopeVal.spanVal sp)) :
    (scope.error = none →
      ∀ code msg, SpanEvent.setStatus code msg ∉ (endTrace c scope).2) ∧
    (scope.error = some GormError.recordNotFound →
      SpanEvent.setStatus StatusCode.error "not found" ∈ (endTrace c scope).2) ∧
    (∀ n, scope.error = some (GormError.otherErr n) →
      SpanEvent.setStatus StatusCode.unset "unknown" ∈ (endTrace c scope).2) := by
  refine ⟨?_, ?_, ?_⟩
  · intro he code msg hmem
    simp only [endTrace, h, he] at hmem
    simp at hmem
  · intro he
    simp only [endTrace, h, he]
    simp [errorsIsRecordNotFound]
  · intro n he
    simp only [endTrace, h, he]
    simp [errorsIsRecordNotFound]

/-- Witness for C3 at a concrete input: default settings, a scope
holding a span and a record-not-found error. -/
theorem endTrace_status_classification_witness :
    SpanEvent.setStatus StatusCode.error "not found" ∈
      (endTrace zeroCallbacks
        ⟨[(spanScopeKey, ScopeVal.spanVal (SpanHandle.real 0))], ⟨"t", "q"⟩,
          some GormError.recordNotFound⟩).2 :=
  (endTrace_status_classification zeroCallbacks
      ⟨[(spanScopeKey, ScopeVal.spanVal (SpanHandle.real 0))], ⟨"t", "q"⟩,
        some GormError.recordNotFound⟩
      (SpanHandle.real 0) (by decide)).2.1 rfl

/-- C7: when a span was started for the operation, the after hook makes
exactly one SetAttributes call, before the span is ended, with exactly
the configured default attributes in order, then the gorm.table
attribute carrying the resolved table name when table-recording is
enabled, then the gorm.query attribute carrying the rendered SQL when
query-recording is enabled. -/
theorem endTrace_attribute_set (c : callbacks) (scope : Scope)
    (sp : SpanHandle)
    (h : scopeGet scope spanScopeKey = some (ScopeVal.spanVal sp)) :
    (endTrace c scope).2 =
      SpanEvent.setAttributes
        (c.defaultAttributes
          ++ (if c.table then [keyString TableKey scope.statement.table] else [])
          ++ (if c.query then [keyString QueryKey scope.statement.sql] else []))
      :: ((match scope.error with
           | none => []
           | some err =>
             if errorsIsRecordNotFound err
             then [SpanEvent.setStatus StatusCode.error "not found"]
             else [SpanEvent.setStatus StatusCode.unset "unknown"])
          ++ [SpanEvent.spanEnd]) := by
  simp only [endTrace, h]
  cases htab : c.table <;> cases hq : c.query <;> simp [htab, hq]

/-- Witness for C7 at a concrete input: both recording flags on, a
default attribute, and a successful operation on table "users". -/
theorem endTrace_attribute_set_witness :
    (endTrace
        { allowRoot := false, query := true, table := true,
          defaultAttributes := [⟨"db.system", .stringVal "sql"⟩],
          tracer := .globalTracer "otgorm",
          spanOptions := [.withSpanKind .internal] }
        ⟨[(spanScopeKey, ScopeVal.spanVal (SpanHandle.real 0))],
          ⟨"users", "SELECT * FROM users"⟩, none⟩).2 =
      [SpanEvent.setAttributes
        [⟨"db.system", .stringVal "sql"⟩,
         ⟨"gorm.table", .stringVal "users"⟩,
         ⟨"gorm.query", .stringVal "SELECT * FROM users"⟩],
       SpanEvent.spanEnd] :=
  endTrace_attribute_set
    { allowRoot := false, query := true, table := true,
      defaultAttributes := [⟨"db.system", .stringVal "sql"⟩],
      tracer := .globalTracer "otgorm",
      spanOptions := [.withSpanKind .internal] }
    ⟨[(spanScopeKey, ScopeVal.spanVal (SpanHandle.real 0))],
      ⟨"users", "SELECT * FROM users"⟩, none⟩
    (SpanHandle.real 0) (by decide)

/-- C9: each after-hook invocation ends the span at most once, and when
a span is found in scope state, End is called exactly once, whatever
status branch was taken. -/
theorem endTrace_end_exactly_once (c : callbacks) (scope : Scope) :
    ((endTrace c scope).2.count SpanEvent.spanEnd ≤ 1) ∧
    (∀ sp, scopeGet scope spanScopeKey = some (ScopeVal.spanVal sp) →
      (endTrace c scope).2.count SpanEvent.spanEnd = 1) := by
  constructor
  · unfold endTrace
    cases h : scopeGet scope spanScopeKey with
    | none => simp
    | some v =>
      cases v with
      | spanVal sp =>
        cases he : scope.error with
        | none => simp
        | some err => cases err <;> simp [errorsIsRecordNotFound]
      | ctxVal c0 => simp
      | otherVal n => simp
  · intro sp h
    simp only [endTrace, h]
    cases he : scope.error with
    | none => simp
    | some err => cases err <;> simp [errorsIsRecordNotFound]

/-- Witness for C9 at a concrete input with a span in scope. -/
theorem endTrace_end_exactly_once_witness :
    ((endTrace zeroCallbacks
        ⟨[(spanScopeKey, ScopeVal.spanVal (SpanHandle.real 3))], ⟨"t", "q"⟩,
          some (GormError.otherErr 0)⟩).2.count SpanEvent.spanEnd = 1) :=
  (endTrace_end_exactly_once zeroCallbacks
      ⟨[(spanScopeKey, ScopeVal.spanVal (SpanHandle.real 3))], ⟨"t", "q"⟩,
        some (GormError.otherErr 0)⟩).2 (SpanHandle.real 3) (by decide)

/-- C10: when the span slot of the scope holds a value of the wrong
dynamic type, the after hook returns immediately with no side effect:
no span call is made and the settings are untouched, exactly as when the
slot is absent. -/
theorem endTrace_wrong_type_noop (c : callbacks) (scope : Scope)
    (v : ScopeVal) (h1 : scopeGet scope spanScopeKey = some v)
    (h2 : ∀ sp, v ≠ ScopeVal.spanVal sp) :
    (endTrace c scope).2 = [] ∧ (endTrace c scope).1 = c := by
  unfold endTrace
  rw [h1]
  cases v with
  | spanVal sp => exact absurd rfl (h2 sp)
  | ctxVal c0 => exact ⟨rfl, rfl⟩
  | otherVal n => exact ⟨rfl, rfl⟩

/-- Witness for C10 at a concrete input: the span slot holds an opaque
non-span value. -/
theorem endTrace_wrong_type_noop_witness :
    (endTrace zeroCallbacks
        ⟨[(spanScopeKey, ScopeVal.otherVal 0)], ⟨"t", "q"⟩, none⟩).2 = [] ∧
    (endTrace zeroCallbacks
        ⟨[(spanScopeKey, ScopeVal.otherVal 0)], ⟨"t", "q"⟩, none⟩).1 =
      zeroCallbacks :=
  endTrace_wrong_type_noop zeroCallbacks
    ⟨[(spanScopeKey, ScopeVal.otherVal 0)], ⟨"t", "q"⟩, none⟩
    (ScopeVal.otherVal 0) (by decide)
    (fun sp h => ScopeVal.noConfusion h)
